/-
Verification of the focused-recording event pipeline of `keylogger.py`
(class `TypingRecorder`): the start/stop recording state machine, the
append-only key-event log buffer, and the save/clear/close operations.

The Python methods are shallowly embedded as pure Lean functions over an
explicit application state.  External collaborators are passed in as
values: the answer of a confirmation dialog is a `Bool` argument, the
result of the file-save dialog is a `String` (empty on cancel, mirroring
Tk), the outcome of the file write is a `WriteResult`, the wall-clock
timestamp strings are arguments, and Python's built-in
`str.isprintable` is an abstract parameter `isprintable : String → Bool`
about which only documented facts are assumed where needed.
-/
import Mathlib

set_option autoImplicit false

namespace TypingRecorder

/-- A captured record, as stored in `self.log`:
`(timestamp_str, event_keysym, char)`. -/
abbrev Rec := String × String × String

/-- The raw key notification delivered by the toolkit to the bound
handler: `event.keysym` and `event.char`. -/
structure RawKeyEvent where
  keysym : String
  char : String
deriving DecidableEq, Repr

/-- The observable state of a `TypingRecorder` instance:
`self.recording`, `self.log`, the rows of the Treeview mirror,
the `state` configuration of the Start and Stop buttons, whether the
`<Key>` handler is currently bound to the typing area, and whether the
window has been destroyed. -/
structure AppState where
  recording : Bool
  log : List Rec
  tree : List Rec
  startBtnEnabled : Bool
  stopBtnEnabled : Bool
  keyBound : Bool
  destroyed : Bool
deriving DecidableEq, Repr

/-- The state after `__init__` / `_build_ui`: not recording, empty log,
Start button normal, Stop button disabled, no key binding. -/
def initState : AppState :=
  { recording := false
    log := []
    tree := []
    startBtnEnabled := true
    stopBtnEnabled := false
    keyBound := false
    destroyed := false }

/-- `start_recording`: early return if `self.recording`; otherwise bind
the `<Key>` handler, set `recording = True`, disable Start, enable
Stop.  (The status-label update and `focus_set` touch only widgets
outside this state.) -/
def start_recording (s : AppState) : AppState :=
  if s.recording then s
  else { s with
          keyBound := true
          recording := true
          startBtnEnabled := false
          stopBtnEnabled := true }

/-- `stop_recording`: early return if `not self.recording`; otherwise
unbind `<Key>`, set `recording = False`, enable Start, disable Stop. -/
def stop_recording (s : AppState) : AppState :=
  if !s.recording then s
  else { s with
          keyBound := false
          recording := false
          startBtnEnabled := true
          stopBtnEnabled := false }

/-- The record built inside `_on_key`:
`char = event.char if event.char and event.char.isprintable() else ""`,
packed with the timestamp and `event.keysym`. -/
def mkRecord (isprintable : String → Bool) (ts : String) (e : RawKeyEvent) : Rec :=
  (ts, e.keysym, if e.char ≠ "" ∧ isprintable e.char = true then e.char else "")

/-- `_on_key`: append the new record to `self.log` and insert it at
the end of the Treeview. -/
def on_key (isprintable : String → Bool) (ts : String) (e : RawKeyEvent)
    (s : AppState) : AppState :=
  { s with
      log := s.log ++ [mkRecord isprintable ts e]
      tree := s.tree ++ [mkRecord isprintable ts e] }

/-- A key notification reaching the typing area runs `_on_key` exactly
when the `<Key>` handler is bound; otherwise nothing in the recorder
observes it. -/
def deliver_key (isprintable : String → Bool) (ts : String) (e : RawKeyEvent)
    (s : AppState) : AppState :=
  if s.keyBound then on_key isprintable ts e s else s

/-- A dialog shown by `save_log` via `messagebox`. -/
inductive Dialog where
  | info (title msg : String)
  | error (title msg : String)
deriving DecidableEq, Repr

/-- Outcome of the attempted file write inside the `try` block. -/
inductive WriteResult where
  | ok
  | err (msg : String)
deriving DecidableEq, Repr

/-- `safe_char = char if char else ""` from the write loop. -/
def safeChar (c : String) : String :=
  if c ≠ "" then c else ""

/-- One data line of the written file: `f"{ts}\t{keysym}\t{safe_char}\n"`. -/
def recordLine (r : Rec) : String :=
  r.1 ++ "\t" ++ r.2.1 ++ "\t" ++ safeChar r.2.2 ++ "\n"

/-- The data lines written by the `for ts, keysym, char in self.log` loop. -/
def logBody : List Rec → String
  | [] => ""
  | r :: rs => recordLine r ++ logBody rs

/-- The header block written by the first three `f.write` calls:
title line, generation-timestamp line, column-description line, and the
blank line ending the third write. -/
def headerStr (genTs : String) : String :=
  "# Typing Recorder Log\n"
    ++ ("# Generated: " ++ genTs ++ "\n")
    ++ "# Columns: timestamp | keysym | char (char empty if non-printable)\n\n"

/-- The full text written to the file by `save_log` when the write
succeeds. -/
def logFileContent (genTs : String) (log : List Rec) : String :=
  headerStr genTs ++ logBody log

/-- `save_log`.  `fpath` is the return value of
`filedialog.asksaveasfilename` (empty string when the user cancels),
`genTs` the `datetime.now().isoformat()` timestamp, `wr` the outcome of
the file write.  Returns the state after the call, the successfully
written file as `(path, content)` if any, and the dialogs shown. -/
def save_log (s : AppState) (fpath genTs : String) (wr : WriteResult) :
    AppState × Option (String × String) × List Dialog :=
  if s.log = [] then
    (s, none, [Dialog.info "Save Log" "No events to save."])
  else if fpath = "" then
    (s, none, [])
  else
    match wr with
    | WriteResult.ok =>
        (s, some (fpath, logFileContent genTs s.log),
         [Dialog.info "Save Log"
           ("Saved " ++ toString s.log.length ++ " events to:\n" ++ fpath)])
    | WriteResult.err m =>
        (s, none, [Dialog.error "Save Log" ("Failed to save file:\n" ++ m)])

/-- `clear_log`.  `confirm` is the answer `messagebox.askyesno` would
return.  Returns the state after the call and whether the confirmation
dialog was actually shown. -/
def clear_log (s : AppState) (confirm : Bool) : AppState × Bool :=
  if s.log = [] then (s, false)
  else if !confirm then (s, true)
  else ({ s with log := [], tree := [] }, true)

/-- `on_close`.  `confirm` is the answer `messagebox.askyesno` would
return.  Returns the state after the call and whether the confirmation
dialog was shown. -/
def on_close (s : AppState) (confirm : Bool) : AppState × Bool :=
  if s.recording then
    if !confirm then (s, true)
    else ({ s with destroyed := true }, true)
  else ({ s with destroyed := true }, false)

/-- One UI notification, together with the external inputs it consumes. -/
inductive Ev where
  | start
  | stop
  | key (ts : String) (e : RawKeyEvent)
  | save (fpath genTs : String) (wr : WriteResult)
  | clear (confirm : Bool)
  | close (confirm : Bool)
deriving DecidableEq, Repr

/-- The state transition performed by one notification. -/
def step (isprintable : String → Bool) (s : AppState) : Ev → AppState
  | Ev.start => start_recording s
  | Ev.stop => stop_recording s
  | Ev.key ts e => deliver_key isprintable ts e s
  | Ev.save fpath genTs wr => (save_log s fpath genTs wr).1
  | Ev.clear c => (clear_log s c).1
  | Ev.close c => (on_close s c).1

/-- The state reached from `initState` by a sequence of notifications. -/
def run (isprintable : String → Bool) (evs : List Ev) : AppState :=
  evs.foldl (step isprintable) initState

/-- Split a character list at every occurrence of `sep`, keeping empty
pieces (the behaviour of splitting text into lines / fields). -/
def splitChar (sep : Char) : List Char → List (List Char)
  | [] => [[]]
  | c :: cs =>
    if c = sep then [] :: splitChar sep cs
    else
      match splitChar sep cs with
      | [] => [[c]]
      | l :: ls => (c :: l) :: ls

/-- Modelled from the spec: re-reading the file classifies a line as a
data line when it is non-empty and is not part of the header comment
block (does not start with `#`). -/
def isDataLine (l : List Char) : Bool :=
  match l with
  | [] => false
  | c :: _ => c != '#'

/-- Modelled from the spec: parsing one data line
`timestamp<TAB>key_symbol<TAB>character` back into a record by
splitting on the tab character. -/
def parseDataLine (l : List Char) : Option Rec :=
  match splitChar '\t' l with
  | [a, b, c] => some (⟨a⟩, ⟨b⟩, ⟨c⟩)
  | _ => none

/-- Modelled from the spec: re-reading the written file and parsing its
data lines — split the text into lines, drop the header comment block
and blank lines, and parse each remaining line. -/
def parseLogFile (content : String) : List Rec :=
  ((splitChar '\n' content.data).filter isDataLine).filterMap parseDataLine

/-- The fields of a record as produced by `_on_key`: the `strftime`
timestamp, the Tk keysym and the printable-or-empty character contain
no tab and no newline, and the timestamp does not begin with `#`
(it begins with the year). -/
def GoodRec (r : Rec) : Prop :=
  '\t' ∉ r.1.data ∧ '\n' ∉ r.1.data ∧
  '\t' ∉ r.2.1.data ∧ '\n' ∉ r.2.1.data ∧
  '\t' ∉ r.2.2.data ∧ '\n' ∉ r.2.2.data ∧
  r.1.data.head? ≠ some '#'

instance (r : Rec) : Decidable (GoodRec r) := by
  unfold GoodRec
  infer_instance

/-- A sample instantiation of the external `str.isprintable`
collaborator, accurate on ASCII strings: every character is in the
visible range `0x20`–`0x7E`.  Used only to instantiate theorems on
concrete inputs. -/
def samplePrintable (str : String) : Bool :=
  str.data.all fun c => 0x20 ≤ c.toNat && c.toNat ≤ 0x7E

/-- A sample mid-session state (recording, handler bound, one record
already captured), used only to instantiate theorems on concrete
inputs. -/
def sampleRecState : AppState :=
  { recording := true
    log := [("t", "a", "a")]
    tree := [("t", "a", "a")]
    startBtnEnabled := false
    stopBtnEnabled := true
    keyBound := true
    destroyed := false }

/-! ### Helper lemmas about line/field splitting -/

/-- Join pieces, terminating each with `sep` (how the writer lays out
lines, each `f.write` ending in a newline). -/
def joinWith (sep : Char) : List (List Char) → List Char
  | [] => []
  | l :: ls => l ++ sep :: joinWith sep ls

/-- The character-list views of the four header lines (the fourth is
the blank line). -/
def headerLines (genTs : String) : List (List Char) :=
  ["# Typing Recorder Log".data,
   ("# Generated: " ++ genTs).data,
   "# Columns: timestamp | keysym | char (char empty if non-printable)".data,
   []]

/-- The character-list view of one data line, without its newline. -/
def lineData (r : Rec) : List Char :=
  r.1.data ++ '\t' :: (r.2.1.data ++ '\t' :: (safeChar r.2.2).data)

theorem safeChar_eq (c : String) : safeChar c = c := by
  rw [safeChar]
  split
  · rfl
  · next h =>
      simp only [ne_eq, not_not] at h
      exact h.symm

theorem splitChar_of_not_mem {sep : Char} {xs : List Char} (h : sep ∉ xs) :
    splitChar sep xs = [xs] := by
  induction xs with
  | nil => rfl
  | cons c cs ih =>
      have hc : ¬c = sep := fun e => h (e ▸ List.mem_cons_self c cs)
      have hcs : sep ∉ cs := fun m => h (List.mem_cons_of_mem _ m)
      simp [splitChar, hc, ih hcs]

theorem splitChar_append_sep {sep : Char} {xs : List Char} (ys : List Char)
    (h : sep ∉ xs) :
    splitChar sep (xs ++ sep :: ys) = xs :: splitChar sep ys := by
  induction xs with
  | nil => simp [splitChar]
  | cons c cs ih =>
      have hc : ¬c = sep := fun e => h (e ▸ List.mem_cons_self c cs)
      have hcs : sep ∉ cs := fun m => h (List.mem_cons_of_mem _ m)
      simp [splitChar, hc, ih hcs]

theorem splitChar_joinWith {sep : Char} (ls : List (List Char))
    (h : ∀ l ∈ ls, sep ∉ l) :
    splitChar sep (joinWith sep ls) = ls ++ [[]] := by
  induction ls with
  | nil => rfl
  | cons l ls ih =>
      rw [joinWith, splitChar_append_sep _ (h l (List.mem_cons_self l ls)),
        ih fun x hx => h x (List.mem_cons_of_mem _ hx)]
      rfl

theorem joinWith_append (sep : Char) (xs ys : List (List Char)) :
    joinWith sep (xs ++ ys) = joinWith sep xs ++ joinWith sep ys := by
  induction xs with
  | nil => rfl
  | cons l ls ih => simp [joinWith, ih]

theorem recordLine_data (r : Rec) :
    (recordLine r).data = lineData r ++ ['\n'] := by
  simp [recordLine, lineData, String.data_append,
    show "\t".data = ['\t'] from rfl, show "\n".data = ['\n'] from rfl]

theorem logBody_data (log : List Rec) :
    (logBody log).data = joinWith '\n' (log.map lineData) := by
  induction log with
  | nil => rfl
  | cons r rs ih =>
      simp [logBody, String.data_append, recordLine_data, joinWith, ih]

theorem headerStr_data (genTs : String) :
    (headerStr genTs).data = joinWith '\n' (headerLines genTs) := by
  simp [headerStr, headerLines, String.data_append, joinWith,
    show "# Typing Recorder Log\n".data
      = "# Typing Recorder Log".data ++ ['\n'] from rfl,
    show "\n".data = ['\n'] from rfl,
    show "# Columns: timestamp | keysym | char (char empty if non-printable)\n\n".data
      = "# Columns: timestamp | keysym | char (char empty if non-printable)".data
        ++ ['\n', '\n'] from rfl]

theorem logFileContent_data (genTs : String) (log : List Rec) :
    (logFileContent genTs log).data
      = joinWith '\n' (headerLines genTs ++ log.map lineData) := by
  rw [logFileContent, String.data_append, headerStr_data, logBody_data,
    joinWith_append]

theorem lineData_no_newline (r : Rec) (h : GoodRec r) : '\n' ∉ lineData r := by
  obtain ⟨_, h1, _, h2, _, h3, _⟩ := h
  intro hm
  simp [lineData, safeChar_eq, List.mem_append, List.mem_cons, h1, h2, h3] at hm

theorem isDataLine_lineData (r : Rec) (h : r.1.data.head? ≠ some '#') :
    isDataLine (lineData r) = true := by
  rcases hd : r.1.data with _ | ⟨c, cs⟩
  · simp [lineData, hd, isDataLine]
  · rw [hd] at h
    have hc : c ≠ '#' := fun e => h (by simp [e])
    simp [lineData, hd, isDataLine, hc]

theorem headerLines_no_newline (genTs : String) (hgen : '\n' ∉ genTs.data) :
    ∀ l ∈ headerLines genTs, '\n' ∉ l := by
  intro l hl
  simp only [headerLines, List.mem_cons, List.not_mem_nil, or_false] at hl
  rcases hl with h | h | h | h <;> subst h
  · decide
  · rw [String.data_append]
    simp only [List.mem_append, not_or]
    exact ⟨by decide, hgen⟩
  · decide
  · simp

theorem headerLines_not_data (genTs : String) :
    ∀ l ∈ headerLines genTs, isDataLine l = false := by
  intro l hl
  simp only [headerLines, List.mem_cons, List.not_mem_nil, or_false] at hl
  rcases hl with h | h | h | h <;> subst h
  · rfl
  · rw [String.data_append,
      show "# Generated: ".data = '#' :: " Generated: ".data from rfl]
    rfl
  · rfl
  · rfl

theorem parseDataLine_lineData (r : Rec) (h : GoodRec r) :
    parseDataLine (lineData r) = some r := by
  obtain ⟨ht1, _, ht2, _, ht3, _, _⟩ := h
  have ht3' : '\t' ∉ (safeChar r.2.2).data := by rw [safeChar_eq]; exact ht3
  rw [parseDataLine, lineData, splitChar_append_sep _ ht1, splitChar_append_sep _ ht2,
    splitChar_of_not_mem ht3']
  simp [safeChar_eq]

theorem parse_map_lineData (log : List Rec) (h : ∀ r ∈ log, GoodRec r) :
    ((log.map lineData).filter isDataLine).filterMap parseDataLine = log := by
  induction log with
  | nil => rfl
  | cons r rs ih =>
      have hr := h r (List.mem_cons_self r rs)
      obtain ⟨_, _, _, _, _, _, hh⟩ := hr
      rw [List.map_cons, List.filter_cons_of_pos (isDataLine_lineData r hh),
        List.filterMap_cons, parseDataLine_lineData r (h r (List.mem_cons_self r rs)),
        ih fun x hx => h x (List.mem_cons_of_mem _ hx)]

theorem parse_logFileContent (genTs : String) (log : List Rec)
    (hgen : '\n' ∉ genTs.data) (hlog : ∀ r ∈ log, GoodRec r) :
    parseLogFile (logFileContent genTs log) = log := by
  rw [parseLogFile, logFileContent_data, splitChar_joinWith]
  · rw [List.filter_append, List.filter_append,
      List.filter_eq_nil_iff.mpr (by
        intro l hl
        simp [headerLines_not_data genTs l hl]),
      show List.filter isDataLine [[]] = [] from rfl, List.append_nil,
      List.nil_append]
    exact parse_map_lineData log hlog
  · intro l hl
    rcases List.mem_append.mp hl with h | h
    · exact headerLines_no_newline genTs hgen l h
    · obtain ⟨r, hr, rfl⟩ := List.mem_map.mp h
      exact lineData_no_newline r (hlog r hr)

/-! ### The state-machine invariant -/

/-- The coupling maintained by `start_recording` / `stop_recording`:
the `<Key>` handler is bound exactly while recording, the Start button
is enabled exactly while idle, and the Stop button exactly while
recording. -/
def StateInv (s : AppState) : Prop :=
  s.keyBound = s.recording ∧
  s.startBtnEnabled = !s.recording ∧
  s.stopBtnEnabled = s.recording

theorem stateInv_initState : StateInv initState :=
  ⟨rfl, rfl, rfl⟩

theorem save_log_state (s : AppState) (fp g : String) (wr : WriteResult) :
    (save_log s fp g wr).1 = s := by
  rw [save_log.eq_def]
  split
  · rfl
  · split
    · rfl
    · cases wr <;> rfl

theorem clear_log_preserves (s : AppState) (c : Bool) :
    (clear_log s c).1.recording = s.recording ∧
    (clear_log s c).1.startBtnEnabled = s.startBtnEnabled ∧
    (clear_log s c).1.stopBtnEnabled = s.stopBtnEnabled ∧
    (clear_log s c).1.keyBound = s.keyBound ∧
    (clear_log s c).1.destroyed = s.destroyed := by
  rw [clear_log]
  split
  · exact ⟨rfl, rfl, rfl, rfl, rfl⟩
  · split
    · exact ⟨rfl, rfl, rfl, rfl, rfl⟩
    · exact ⟨rfl, rfl, rfl, rfl, rfl⟩

theorem on_close_preserves (s : AppState) (c : Bool) :
    (on_close s c).1.recording = s.recording ∧
    (on_close s c).1.startBtnEnabled = s.startBtnEnabled ∧
    (on_close s c).1.stopBtnEnabled = s.stopBtnEnabled ∧
    (on_close s c).1.keyBound = s.keyBound ∧
    (on_close s c).1.log = s.log := by
  rw [on_close]
  split
  · split
    · exact ⟨rfl, rfl, rfl, rfl, rfl⟩
    · exact ⟨rfl, rfl, rfl, rfl, rfl⟩
  · exact ⟨rfl, rfl, rfl, rfl, rfl⟩

theorem stateInv_step (pr : String → Bool) (s : AppState) (ev : Ev)
    (h : StateInv s) : StateInv (step pr s ev) := by
  obtain ⟨h1, h2, h3⟩ := h
  cases ev with
  | start =>
      rw [step, start_recording]
      split
      · exact ⟨h1, h2, h3⟩
      · exact ⟨rfl, rfl, rfl⟩
  | stop =>
      rw [step, stop_recording]
      split
      · exact ⟨h1, h2, h3⟩
      · exact ⟨rfl, rfl, rfl⟩
  | key ts e =>
      rw [step, deliver_key]
      split
      · exact ⟨h1, h2, h3⟩
      · exact ⟨h1, h2, h3⟩
  | save fp g wr =>
      rw [step, save_log_state]
      exact ⟨h1, h2, h3⟩
  | clear c =>
      have pres := clear_log_preserves s c
      exact ⟨by rw [step, pres.2.2.2.1, pres.1]; exact h1,
        by rw [step, pres.2.1, pres.1]; exact h2,
        by rw [step, pres.2.2.1, pres.1]; exact h3⟩
  | close c =>
      have pres := on_close_preserves s c
      exact ⟨by rw [step, pres.2.2.2.1, pres.1]; exact h1,
        by rw [step, pres.2.1, pres.1]; exact h2,
        by rw [step, pres.2.2.1, pres.1]; exact h3⟩

theorem stateInv_foldl (pr : String → Bool) (evs : List Ev) (s : AppState)
    (h : StateInv s) : StateInv (List.foldl (step pr) s evs) := by
  induction evs generalizing s with
  | nil => exact h
  | cons ev evs ih => exact ih _ (stateInv_step pr s ev h)

theorem stateInv_run (pr : String → Bool) (evs : List Ev) :
    StateInv (run pr evs) :=
  stateInv_foldl pr evs initState stateInv_initState

/-! ### Claim theorems -/

/-- C1: for every non-empty log buffer whose records have the shape
produced by `_on_key` (no tab or newline in any field, timestamp not
beginning with `#`), `save_log` with a user-supplied path writes the
header comment block followed by one `timestamp<TAB>keysym<TAB>char`
line per record in buffer order, and re-reading the written text and
parsing its data lines reproduces the original record sequence
exactly. -/
theorem save_log_roundtrip (s : AppState) (p genTs : String)
    (hne : s.log ≠ []) (hp : p ≠ "") (hgen : '\n' ∉ genTs.data)
    (hlog : ∀ r ∈ s.log, GoodRec r) :
    (save_log s p genTs WriteResult.ok).2.1
        = some (p, logFileContent genTs s.log) ∧
      parseLogFile (logFileContent genTs s.log) = s.log := by
  constructor
  · rw [save_log.eq_def, if_neg hne, if_neg hp]
  · exact parse_logFileContent genTs s.log hgen hlog

theorem save_log_roundtrip_witness :
    (save_log { initState with log := [("t1", "a", "a")] } "out.txt" "2024"
          WriteResult.ok).2.1
        = some ("out.txt", logFileContent "2024" [("t1", "a", "a")]) ∧
      parseLogFile (logFileContent "2024" [("t1", "a", "a")]) = [("t1", "a", "a")] :=
  save_log_roundtrip { initState with log := [("t1", "a", "a")] } "out.txt" "2024"
    (by decide) (by decide) (by decide) (by decide)

/-- C2: a key notification arriving while the recorder is in `Idle`
(in any reachable state) leaves the log buffer unchanged, because the
`<Key>` handler is only bound while recording. -/
theorem idle_key_ignored (pr : String → Bool) (evs : List Ev) (ts : String)
    (e : RawKeyEvent) (h : (run pr evs).recording = false) :
    (step pr (run pr evs) (Ev.key ts e)).log = (run pr evs).log := by
  have hb : (run pr evs).keyBound = false := by
    rw [(stateInv_run pr evs).1, h]
  simp [step, deliver_key, hb]

theorem idle_key_ignored_witness :
    (step samplePrintable (run samplePrintable []) (Ev.key "t" ⟨"a", "a"⟩)).log
      = (run samplePrintable []).log :=
  idle_key_ignored samplePrintable [] "t" ⟨"a", "a"⟩ (by decide)

/-- C3: in every reachable state the Start/Stop affordances mirror the
recording flag exactly: Start enabled and Stop disabled in `Idle`,
Start disabled and Stop enabled in `Recording` — never both enabled or
both disabled. -/
theorem controls_mirror_state (pr : String → Bool) (evs : List Ev) :
    ((run pr evs).recording = false ∧ (run pr evs).startBtnEnabled = true ∧
      (run pr evs).stopBtnEnabled = false) ∨
    ((run pr evs).recording = true ∧ (run pr evs).startBtnEnabled = false ∧
      (run pr evs).stopBtnEnabled = true) := by
  have hinv := stateInv_run pr evs
  cases hrec : (run pr evs).recording with
  | false =>
      exact Or.inl ⟨rfl, by rw [hinv.2.1, hrec]; rfl, by rw [hinv.2.2, hrec]⟩
  | true =>
      exact Or.inr ⟨rfl, by rw [hinv.2.1, hrec]; rfl, by rw [hinv.2.2, hrec]⟩

/-- C4: when the file write raises, `save_log` shows exactly one error
dialog carrying the exception message, writes nothing observable, and
returns with the application state — in particular the log buffer and
the destroyed flag — exactly as before. -/
theorem save_failure_reports_and_preserves (s : AppState) (p genTs m : String)
    (hne : s.log ≠ []) (hp : p ≠ "") :
    save_log s p genTs (WriteResult.err m)
      = (s, none, [Dialog.error "Save Log" ("Failed to save file:\n" ++ m)]) := by
  rw [save_log.eq_def, if_neg hne, if_neg hp]

theorem save_failure_witness :
    save_log { initState with log := [("t1", "a", "a")] } "out.txt" "2024"
        (WriteResult.err "disk full")
      = ({ initState with log := [("t1", "a", "a")] }, none,
          [Dialog.error "Save Log" ("Failed to save file:\n" ++ "disk full")]) :=
  save_failure_reports_and_preserves { initState with log := [("t1", "a", "a")] }
    "out.txt" "2024" "disk full" (by decide) (by decide)

/-- C5: `clear_log` on an empty buffer is a no-op that never shows the
confirmation dialog; on a non-empty buffer it always asks, a declined
confirmation changes nothing, and a confirmed one empties both the
buffer and the display list. -/
theorem clear_log_cases (s : AppState) (c : Bool) :
    (s.log = [] → clear_log s c = (s, false)) ∧
    (s.log ≠ [] → (clear_log s c).2 = true) ∧
    (s.log ≠ [] → c = false → (clear_log s c).1 = s) ∧
    (s.log ≠ [] → c = true →
      (clear_log s c).1.log = [] ∧ (clear_log s c).1.tree = []) := by
  refine ⟨fun h => by rw [clear_log, if_pos h], fun h => ?_,
    fun h hc => ?_, fun h hc => ?_⟩
  · cases c <;> simp [clear_log, h]
  · subst hc
    simp [clear_log, h]
  · subst hc
    simp [clear_log, h]

theorem clear_log_cases_witness :
    (clear_log { initState with log := [("t", "a", "a")], tree := [("t", "a", "a")] }
        true).1.log = [] ∧
    (clear_log { initState with log := [("t", "a", "a")], tree := [("t", "a", "a")] }
        true).1.tree = [] :=
  (clear_log_cases
    { initState with log := [("t", "a", "a")], tree := [("t", "a", "a")] }
    true).2.2.2 (by decide) rfl

/-- C6: a window-close request while recording always shows the
confirmation dialog; a declined confirmation returns the state exactly
as it was (still open, still recording, buffer intact), and the window
is only ever destroyed by the request when already destroyed or when
the user confirms. -/
theorem close_recording_confirm (s : AppState) (c : Bool)
    (hrec : s.recording = true) :
    (on_close s c).2 = true ∧
    (c = false → on_close s c = (s, true)) ∧
    ((on_close s c).1.destroyed = true → s.destroyed = true ∨ c = true) := by
  cases c with
  | false =>
      have he : on_close s false = (s, true) := by simp [on_close, hrec]
      rw [he]
      exact And.intro rfl (And.intro (fun _ => rfl) (fun hd => Or.inl hd))
  | true =>
      have he : on_close s true = ({ s with destroyed := true }, true) := by
        simp [on_close, hrec]
      rw [he]
      exact And.intro rfl (And.intro (fun h => nomatch h) (fun _ => Or.inr rfl))

theorem close_recording_confirm_witness :
    on_close { initState with recording := true } false
      = ({ initState with recording := true }, true) :=
  (close_recording_confirm { initState with recording := true } false
    (by decide)).2.1 rfl

/-- C7: except for a confirmed clear of a non-empty buffer, every
notification leaves the previous log as a prefix of the new log (no
deletion, no reordering); in particular `start` and `stop` leave the
buffer exactly unchanged, so it persists across start/stop cycles. -/
theorem log_append_only (pr : String → Bool) (s : AppState) (ev : Ev)
    (h : ∀ c, ev = Ev.clear c → c = true → s.log = []) :
    s.log <+: (step pr s ev).log ∧
    (step pr s Ev.start).log = s.log ∧
    (step pr s Ev.stop).log = s.log := by
  refine ⟨?_, ?_, ?_⟩
  · cases ev with
    | start =>
        rw [step, start_recording]
        split
        · exact List.prefix_rfl
        · exact List.prefix_rfl
    | stop =>
        rw [step, stop_recording]
        split
        · exact List.prefix_rfl
        · exact List.prefix_rfl
    | key ts e =>
        rw [step, deliver_key]
        split
        · exact List.prefix_append _ _
        · exact List.prefix_rfl
    | save fp g wr =>
        rw [step, save_log_state]
    | clear c =>
        cases c with
        | false =>
            rw [step, clear_log]
            split
            · exact List.prefix_rfl
            · exact List.prefix_rfl
        | true =>
            rw [step, clear_log, if_pos (h true rfl rfl)]
    | close c =>
        rw [step, (on_close_preserves s c).2.2.2.2]
  · rw [step, start_recording]
    split <;> rfl
  · rw [step, stop_recording]
    split <;> rfl

theorem log_append_only_witness :
    ([("t", "a", "a")] : List Rec)
        <+: (step samplePrintable { initState with log := [("t", "a", "a")] } Ev.start).log ∧
      (step samplePrintable { initState with log := [("t", "a", "a")] } Ev.start).log
        = [("t", "a", "a")] ∧
      (step samplePrintable { initState with log := [("t", "a", "a")] } Ev.stop).log
        = [("t", "a", "a")] :=
  log_append_only samplePrintable { initState with log := [("t", "a", "a")] }
    Ev.start (by decide)

/-- C8: `_on_key` appends exactly one record whose character field is
the raw character when that is non-empty and printable and the empty
string otherwise; assuming the toolkit delivers at most one character
and `str.isprintable` rejects tab and newline, the stored field is
empty or a single printable character and is never a tab or a
newline. -/
theorem recorded_char_printable (pr : String → Bool) (ts : String)
    (e : RawKeyEvent) (s : AppState) (hlen : e.char.length ≤ 1)
    (htab : pr "\t" = false) (hnl : pr "\n" = false) :
    (on_key pr ts e s).log = s.log ++ [mkRecord pr ts e] ∧
    (e.char = "" ∨ pr e.char = false → (mkRecord pr ts e).2.2 = "") ∧
    (e.char ≠ "" → pr e.char = true → (mkRecord pr ts e).2.2 = e.char) ∧
    ((mkRecord pr ts e).2.2 = "" ∨
      ((mkRecord pr ts e).2.2.length = 1 ∧ pr (mkRecord pr ts e).2.2 = true)) ∧
    (mkRecord pr ts e).2.2 ≠ "\t" ∧ (mkRecord pr ts e).2.2 ≠ "\n" := by
  by_cases hc : e.char = ""
  · have hm : (mkRecord pr ts e).2.2 = "" := by simp [mkRecord, hc]
    exact ⟨rfl, fun _ => hm, fun hne => absurd hc hne, Or.inl hm,
      by rw [hm]; decide, by rw [hm]; decide⟩
  · by_cases hp : pr e.char = true
    · have hm : (mkRecord pr ts e).2.2 = e.char := by simp [mkRecord, hc, hp]
      have hdata : e.char.data ≠ [] := fun hd => hc (String.ext (by rw [hd]))
      have hpos : 0 < e.char.length := List.length_pos.mpr hdata
      refine ⟨rfl, fun hor => ?_, fun _ _ => hm,
        Or.inr ⟨by rw [hm]; omega, by rw [hm]; exact hp⟩, ?_, ?_⟩
      · rcases hor with h | h
        · exact absurd h hc
        · rw [hp] at h; exact nomatch h
      · intro he
        rw [hm] at he
        rw [he] at hp
        rw [htab] at hp
        exact nomatch hp
      · intro he
        rw [hm] at he
        rw [he] at hp
        rw [hnl] at hp
        exact nomatch hp
    · have hm : (mkRecord pr ts e).2.2 = "" := by simp [mkRecord, hc, hp]
      exact ⟨rfl, fun _ => hm, fun _ hpt => absurd hpt hp, Or.inl hm,
        by rw [hm]; decide, by rw [hm]; decide⟩

theorem recorded_char_printable_witness :
    (mkRecord samplePrintable "t" ⟨"a", "a"⟩).2.2 ≠ "\t" ∧
      (mkRecord samplePrintable "t" ⟨"a", "a"⟩).2.2 ≠ "\n" :=
  (recorded_char_printable samplePrintable "t" ⟨"a", "a"⟩ initState
    (by decide) (by decide) (by decide)).2.2.2.2

/-- C10: `clear_log` — skipped, declined or confirmed — never touches
the recording flag, the Start/Stop affordances or the `<Key>` binding,
and while the binding is live a subsequent key notification is still
appended to the (possibly cleared) buffer. -/
theorem clear_log_frame (pr : String → Bool) (s : AppState) (c : Bool)
    (ts : String) (e : RawKeyEvent) :
    (clear_log s c).1.recording = s.recording ∧
    (clear_log s c).1.startBtnEnabled = s.startBtnEnabled ∧
    (clear_log s c).1.stopBtnEnabled = s.stopBtnEnabled ∧
    (clear_log s c).1.keyBound = s.keyBound ∧
    (s.keyBound = true →
      (deliver_key pr ts e (clear_log s c).1).log
        = (clear_log s c).1.log ++ [mkRecord pr ts e]) := by
  have pres := clear_log_preserves s c
  refine ⟨pres.1, pres.2.1, pres.2.2.1, pres.2.2.2.1, fun hk => ?_⟩
  have hk' : (clear_log s c).1.keyBound = true := by
    rw [pres.2.2.2.1]; exact hk
  rw [deliver_key, if_pos hk']
  rfl

theorem clear_log_frame_witness :
    (deliver_key samplePrintable "t2" ⟨"b", "b"⟩
        (clear_log sampleRecState true).1).log
      = (clear_log sampleRecState true).1.log
          ++ [mkRecord samplePrintable "t2" ⟨"b", "b"⟩] :=
  (clear_log_frame samplePrintable sampleRecState
    true "t2" ⟨"b", "b"⟩).2.2.2.2 (by decide)

/-! ### The C9 scenario -/

theorem lineData_a (ts : String) : lineData (ts, "a", "a") = (ts ++ "\ta\ta").data := by
  simp [lineData, safeChar_eq, String.data_append,
    show "a".data = ['a'] from rfl,
    show "\ta\ta".data = ['\t', 'a', '\t', 'a'] from rfl]

theorem lineData_ret (ts : String) :
    lineData (ts, "Return", "") = (ts ++ "\tReturn\t").data := by
  simp [lineData, safeChar_eq, String.data_append,
    show "Return".data = ['R', 'e', 't', 'u', 'r', 'n'] from rfl,
    show "\tReturn\t".data = ['\t', 'R', 'e', 't', 'u', 'r', 'n', '\t'] from rfl,
    show "".data = ([] : List Char) from rfl]

theorem run_scenario (pr : String → Bool) (ts1 ts2 : String) (ha : pr "a" = true) :
    run pr [Ev.start, Ev.key ts1 ⟨"a", "a"⟩, Ev.key ts2 ⟨"Return", ""⟩, Ev.stop]
      = { recording := false, log := [(ts1, "a", "a"), (ts2, "Return", "")],
          tree := [(ts1, "a", "a"), (ts2, "Return", "")],
          startBtnEnabled := true, stopBtnEnabled := false,
          keyBound := false, destroyed := false } := by
  simp [run, step, start_recording, stop_recording, deliver_key, on_key, mkRecord,
    initState, ha]

theorem content_scenario (ts1 ts2 genTs : String) :
    logFileContent genTs [(ts1, "a", "a"), (ts2, "Return", "")]
      = headerStr genTs ++ (ts1 ++ "\ta\ta\n") ++ (ts2 ++ "\tReturn\t\n") := by
  apply String.ext
  rw [logFileContent_data]
  simp [joinWith_append, joinWith, String.data_append, headerStr_data,
    lineData_a, lineData_ret,
    show "\ta\ta\n".data = ['\t', 'a', '\t', 'a', '\n'] from rfl,
    show "\ta\ta".data = ['\t', 'a', '\t', 'a'] from rfl,
    show "\tReturn\t\n".data = ['\t', 'R', 'e', 't', 'u', 'r', 'n', '\t', '\n'] from rfl,
    show "\tReturn\t".data = ['\t', 'R', 'e', 't', 'u', 'r', 'n', '\t'] from rfl]

theorem lines_scenario (ts1 ts2 genTs : String)
    (h1 : '\n' ∉ ts1.data) (h2 : '\n' ∉ ts2.data) (hg : '\n' ∉ genTs.data) :
    splitChar '\n'
        (headerStr genTs ++ (ts1 ++ "\ta\ta\n") ++ (ts2 ++ "\tReturn\t\n")).data
      = headerLines genTs ++ [(ts1 ++ "\ta\ta").data, (ts2 ++ "\tReturn\t").data, []] := by
  rw [← content_scenario ts1 ts2 genTs, logFileContent_data, splitChar_joinWith]
  · simp [List.map_cons, lineData_a, lineData_ret]
  · intro l hl
    rcases List.mem_append.mp hl with hh | hh
    · exact headerLines_no_newline genTs hg l hh
    · simp only [List.map_cons, List.map_nil, List.mem_cons, List.not_mem_nil,
        or_false] at hh
      rcases hh with rfl | rfl
      · rw [lineData_a, String.data_append]
        intro hm
        rcases List.mem_append.mp hm with hx | hx
        · exact h1 hx
        · revert hx; decide
      · rw [lineData_ret, String.data_append]
        intro hm
        rcases List.mem_append.mp hm with hx | hx
        · exact h2 hx
        · revert hx; decide

/-- C9: the trace start, key `("a", "a")`, key `("Return", "")`, stop,
save to a user-chosen path writes exactly the header/blank block
followed by the two data lines `ts1<TAB>a<TAB>a` and
`ts2<TAB>Return<TAB>` and nothing further: the written text splits into
the three header lines, the blank line, the two data lines and the
final empty piece produced by the terminating newline. -/
theorem scenario_trace (pr : String → Bool) (ts1 ts2 genTs p : String)
    (hp : p ≠ "") (ha : pr "a" = true)
    (h1 : '\n' ∉ ts1.data) (h2 : '\n' ∉ ts2.data) (hg : '\n' ∉ genTs.data) :
    (save_log
        (run pr [Ev.start, Ev.key ts1 ⟨"a", "a"⟩, Ev.key ts2 ⟨"Return", ""⟩, Ev.stop])
        p genTs WriteResult.ok).2.1
      = some (p, headerStr genTs ++ (ts1 ++ "\ta\ta\n") ++ (ts2 ++ "\tReturn\t\n")) ∧
    splitChar '\n'
        (headerStr genTs ++ (ts1 ++ "\ta\ta\n") ++ (ts2 ++ "\tReturn\t\n")).data
      = headerLines genTs ++ [(ts1 ++ "\ta\ta").data, (ts2 ++ "\tReturn\t").data, []] := by
  constructor
  · rw [run_scenario pr ts1 ts2 ha]
    simp [save_log, hp, content_scenario]
  · exact lines_scenario ts1 ts2 genTs h1 h2 hg

theorem scenario_trace_witness :
    (save_log
        (run samplePrintable
          [Ev.start, Ev.key "t1" ⟨"a", "a"⟩, Ev.key "t2" ⟨"Return", ""⟩, Ev.stop])
        "out.txt" "2024" WriteResult.ok).2.1
      = some ("out.txt",
          headerStr "2024" ++ ("t1" ++ "\ta\ta\n") ++ ("t2" ++ "\tReturn\t\n")) :=
  (scenario_trace samplePrintable "t1" "t2" "2024" "out.txt"
    (by decide) (by decide) (by decide) (by decide) (by decide)).1

end TypingRecorder
